import Mathlib

/-!
Verification development for the balloon-delivery client.

The definitions below are a shallow embedding of the repository's
delivery-derivation core and delivery-store operations:

* `processDeliveries` embeds `useDeliveryProcessing.processDeliveries`
  (the Delivery Deriver): it guards against a missing snapshot or missing
  collections, builds last-write-wins lookup maps, sorts submissions with a
  numeric-aware comparator over `id`, and folds over the sorted submissions
  emitting at most one `BalloonDelivery` per `teamId-problemId` key.
* `partitionDeliveries` embeds the pending/recent partition effect of the
  Index page.
* `markAsDelivered` embeds the `markAsDelivered` mutation of the Index page.

Modelling conventions: JavaScript arrays become `List`; a JS `Map` built by
repeated insertion becomes `mapGet` (last insertion wins); a JS `Set` of
string keys becomes a `List String` queried only through `contains`;
`parseInt` becomes `jsParseInt` (leading whitespace, optional sign, `0x` hex
prefix, longest digit prefix, `none` for NaN); `localeCompare` is modelled as
code-point lexicographic comparison (`compare` on `String`), which is the
collation the specification ascribes to it; `Array.prototype.sort` (stable
per ES2019) becomes the stable insertion sort `sortByKey`.
-/

/-- A contest submission as consumed from the snapshot feed. -/
structure Submission where
  id : String
  team_id : String
  problem_id : String
  time : String
deriving DecidableEq, Repr

/-- A judgement for a submission; accepted iff `judgement_type_id = "AC"`. -/
structure Judgement where
  submission_id : String
  judgement_type_id : String
deriving DecidableEq, Repr

/-- A contest team. -/
structure Team where
  id : String
  name : String
deriving DecidableEq, Repr

/-- A contest problem; `id` doubles as the display letter. -/
structure Problem where
  id : String
  name : String
  rgb : String
deriving DecidableEq, Repr

/-- One poll's snapshot. Each collection is `Option` because the feed may
omit it (`!submissions || !teams || !problems || !judgements` in the code). -/
structure ContestData where
  submissions : Option (List Submission)
  teams : Option (List Team)
  problems : Option (List Problem)
  judgements : Option (List Judgement)
deriving DecidableEq, Repr

/-- Status of a balloon delivery record. -/
inductive DeliveryStatus where
  | pending
  | assigned
  | delivered
  | confirmed
deriving DecidableEq, Repr

/-- A derived balloon-delivery record (`BalloonDelivery` in the shared types). -/
structure BalloonDelivery where
  id : String
  teamId : String
  problemId : String
  problemLetter : String
  submissionId : String
  requestedAt : String
  status : DeliveryStatus
  deliveredAt : Option String
  notes : String
  isFirstSolve : Bool
  isFirstTeamSolve : Bool
  isFirstACInContest : Bool
deriving DecidableEq, Repr

/-- Lookup in a JS `Map` built by inserting every element of `l` keyed by
`f`: the last insertion for a key wins, so we search the reversed list. -/
def mapGet {α : Type} (key : String) (f : α → String) (l : List α) : Option α :=
  l.reverse.find? (fun x => f x == key)

/-- Decimal digit value accumulator for `parseInt`. -/
def decValue (cs : List Char) : Nat :=
  cs.foldl (fun acc c => acc * 10 + (c.toNat - 48)) 0

/-- Whether `c` is a hexadecimal digit. -/
def isHexDigitChar (c : Char) : Bool :=
  c.isDigit || ('a' ≤ c && c ≤ 'f') || ('A' ≤ c && c ≤ 'F')

/-- Value of a hexadecimal digit. -/
def hexDigitVal (c : Char) : Nat :=
  if c.isDigit then c.toNat - 48
  else if 'a' ≤ c && c ≤ 'f' then c.toNat - 87
  else c.toNat - 55

/-- Hexadecimal digit accumulator for `parseInt`. -/
def hexValue (cs : List Char) : Nat :=
  cs.foldl (fun acc c => acc * 16 + hexDigitVal c) 0

/-- Magnitude part of `parseInt`: an optional `0x`/`0X` prefix selects
hexadecimal, otherwise the longest leading run of decimal digits is taken;
no digits means NaN (`none`). -/
def jsParseIntCore (cs : List Char) : Option Nat :=
  match cs with
  | '0' :: c :: rest =>
    if c = 'x' ∨ c = 'X' then
      let ds := rest.takeWhile isHexDigitChar
      if ds.isEmpty then none else some (hexValue ds)
    else
      let ds := (('0' : Char) :: c :: rest).takeWhile Char.isDigit
      if ds.isEmpty then none else some (decValue ds)
  | _ =>
    let ds := cs.takeWhile Char.isDigit
    if ds.isEmpty then none else some (decValue ds)

/-- JavaScript `parseInt(s)`: skip leading whitespace, consume an optional
sign, then parse per `jsParseIntCore`; `none` models NaN. -/
def jsParseInt (s : String) : Option Int :=
  let cs := s.data.dropWhile Char.isWhitespace
  match cs with
  | '-' :: rest => (jsParseIntCore rest).map (fun n => -(n : Int))
  | '+' :: rest => (jsParseIntCore rest).map (fun n => (n : Int))
  | _ => (jsParseIntCore cs).map (fun n => (n : Int))

/-- The numeric-aware comparator of `sortedSubmissions`: numeric when both
ids parse, otherwise string comparison (`localeCompare`, modelled as
code-point lexicographic order). `true` means `a` sorts strictly before `b`. -/
def submissionLt (a b : Submission) : Bool :=
  match jsParseInt a.id, jsParseInt b.id with
  | some na, some nb => decide (na < nb)
  | _, _ => compare a.id b.id == Ordering.lt

/-- Insert `x` after every element that sorts strictly before it; together
with `sortByKey` this is a stable insertion sort. -/
def insertSorted {α : Type} (lt : α → α → Bool) (x : α) : List α → List α
  | [] => [x]
  | y :: ys => if lt y x then y :: insertSorted lt x ys else x :: y :: ys

/-- Stable sort modelling `Array.prototype.sort` with a comparator. -/
def sortByKey {α : Type} (lt : α → α → Bool) : List α → List α
  | [] => []
  | x :: xs => insertSorted lt x (sortByKey lt xs)

/-- The `teamId-problemId` key template the code builds twice
(`teamProblemKey` and `deliveryKey`). -/
def pairKey (teamId problemId : String) : String :=
  teamId ++ "-" ++ problemId

/-- Pair key of a submission. -/
def subKey (s : Submission) : String :=
  pairKey s.team_id s.problem_id

/-- Pair key of a delivery record. -/
def recKey (d : BalloonDelivery) : String :=
  pairKey d.teamId d.problemId

/-- Whether the (last-write-wins) judgement for `s` is accepted:
`judgement && judgement.judgement_type_id === "AC"`. -/
def isAccepted (judgements : List Judgement) (s : Submission) : Bool :=
  match mapGet s.id Judgement.submission_id judgements with
  | some j => j.judgement_type_id == "AC"
  | none => false

/-- Whether both the team and the problem of `s` resolve in the snapshot
(the `if (team && problem)` guard). -/
def resolvable (teams : List Team) (problems : List Problem) (s : Submission) : Bool :=
  (mapGet s.team_id Team.id teams).isSome && (mapGet s.problem_id Problem.id problems).isSome

/-- The `notes` string: non-empty banner segments joined by a space; the
first-team-solve segment is always empty in the code. -/
def buildNotes (isFirstACInContest isFirstSolve isFirstTeamSolve : Bool) : String :=
  String.intercalate " "
    (([if isFirstACInContest then "First AC in contest!" else "",
       if isFirstSolve then "🥇 FIRST SOLVE of this problem!" else "",
       if isFirstTeamSolve then "" else ""]).filter (fun s => s ≠ ""))

/-- The record literal pushed by `processDeliveries`, built from the
submission, the resolved problem, the delivered-set and the records emitted
so far in this pass. -/
def mkDelivery (problem : Problem) (deliveredBalloons : List String)
    (deliveries : List BalloonDelivery) (s : Submission) : BalloonDelivery :=
  let isAlreadyDelivered := deliveredBalloons.contains (subKey s)
  let isFirstSolve := (deliveries.filter (fun d => d.problemId == s.problem_id)).length == 0
  let isFirstTeamSolve := (deliveries.filter (fun d => d.teamId == s.team_id)).length == 0
  let isFirstACInContest := deliveries.length == 0
  { id := "delivery-" ++ s.id
    teamId := s.team_id
    problemId := s.problem_id
    problemLetter := problem.id
    submissionId := s.id
    requestedAt := s.time
    status := if isAlreadyDelivered then .delivered else .pending
    deliveredAt := if isAlreadyDelivered then some s.time else none
    notes := buildNotes isFirstACInContest isFirstSolve isFirstTeamSolve
    isFirstSolve := isFirstSolve
    isFirstTeamSolve := isFirstTeamSolve
    isFirstACInContest := isFirstACInContest }

/-- One iteration of the `sortedSubmissions.forEach` body: skip if the
submission is not accepted, a reference dangles, or the pair key was already
processed; otherwise push the record and remember the key. The state pairs
the `deliveries` list with the `processedTeamProblems` set (kept as the list
of keys in insertion order). -/
def deliveryStep (teams : List Team) (problems : List Problem)
    (judgements : List Judgement) (deliveredBalloons : List String)
    (st : List BalloonDelivery × List String) (s : Submission) :
    List BalloonDelivery × List String :=
  if isAccepted judgements s then
    match mapGet s.team_id Team.id teams, mapGet s.problem_id Problem.id problems with
    | some _, some problem =>
      if st.2.contains (subKey s) then st
      else (st.1 ++ [mkDelivery problem deliveredBalloons st.1 s], st.2 ++ [subKey s])
    | _, _ => st
  else st

/-- The Delivery Deriver, `useDeliveryProcessing.processDeliveries`:
guard the snapshot and its four collections, sort submissions with the
numeric-aware comparator, then fold the per-submission step from an empty
pass state. -/
def processDeliveries (contestData : Option ContestData)
    (deliveredBalloons : List String) : List BalloonDelivery :=
  match contestData with
  | none => []
  | some cd =>
    match cd.submissions, cd.teams, cd.problems, cd.judgements with
    | some submissions, some teams, some problems, some judgements =>
      ((sortByKey submissionLt submissions).foldl
        (deliveryStep teams problems judgements deliveredBalloons) ([], [])).1
    | _, _, _, _ => []

/-- The pending/recent partition effect of the Index page: `pending` filters
status `pending`/`assigned`, `recent` filters `delivered`/`confirmed` and
keeps the first ten (`slice(0, 10)`). -/
def partitionDeliveries (allDeliveries : List BalloonDelivery) :
    List BalloonDelivery × List BalloonDelivery :=
  (allDeliveries.filter
     (fun d => decide (d.status = DeliveryStatus.pending ∨ d.status = DeliveryStatus.assigned)),
   (allDeliveries.filter
     (fun d => decide (d.status = DeliveryStatus.delivered ∨ d.status = DeliveryStatus.confirmed))).take 10)

/-- Adding a key to the JS `Set` of delivered keys
(`new Set([...prev, deliveryKey])`). -/
def setAdd (s : List String) (k : String) : List String :=
  if s.contains k then s else s ++ [k]

/-- One iteration of the `prev.map` body inside `markAsDelivered`: a record
whose id matches is replaced by a copy with status `delivered` and a fresh
`deliveredAt`, and its pair key is added to the delivered set; any other
record is kept as is. -/
def markStep (deliveryId now : String)
    (acc : List BalloonDelivery × List String) (d : BalloonDelivery) :
    List BalloonDelivery × List String :=
  if d.id == deliveryId then
    (acc.1 ++ [{ d with status := DeliveryStatus.delivered, deliveredAt := some now }],
     setAdd acc.2 (recKey d))
  else (acc.1 ++ [d], acc.2)

/-- The `markAsDelivered` mutation of the Index page: look the record up by
id; if absent do nothing, otherwise map over the list updating matching
records and the delivered set. `now` stands for `new Date().toISOString()`. -/
def markAsDelivered (deliveryId now : String)
    (allDeliveries : List BalloonDelivery) (delivered : List String) :
    List BalloonDelivery × List String :=
  match allDeliveries.find? (fun d => d.id == deliveryId) with
  | none => (allDeliveries, delivered)
  | some _ => allDeliveries.foldl (markStep deliveryId now) ([], delivered)


/-! ### Helper lemmas about the derivation pass -/

/-- `contains` on a list of strings decides membership. -/
theorem contains_eq_false_iff (l : List String) (a : String) :
    l.contains a = false ↔ a ∉ l := by
  rw [← Bool.not_eq_true]
  simp [List.contains]

section PassLemmas

variable {teams : List Team} {problems : List Problem} {judgements : List Judgement}
variable (deliveredBalloons : List String)

/-- The pair key of a freshly built record is the pair key of its submission. -/
theorem recKey_mkDelivery (p : Problem) (del : List String)
    (ds : List BalloonDelivery) (s : Submission) :
    recKey (mkDelivery p del ds s) = subKey s := rfl

/-- Guard under which `deliveryStep` emits a record: the submission is
accepted, its references resolve, and its pair key is new to the pass. -/
def emits (teams : List Team) (problems : List Problem)
    (judgements : List Judgement)
    (st : List BalloonDelivery × List String) (s : Submission) : Bool :=
  isAccepted judgements s && resolvable teams problems s && !(st.2.contains (subKey s))

/-- When the guard fails, the step leaves the pass state unchanged. -/
theorem deliveryStep_eq_self {st : List BalloonDelivery × List String}
    {s : Submission} (h : emits teams problems judgements st s = false) :
    deliveryStep teams problems judgements deliveredBalloons st s = st := by
  unfold emits resolvable at h
  unfold deliveryStep
  cases ha : isAccepted judgements s <;> rw [ha] at h
  · simp
  · cases ht : mapGet s.team_id Team.id teams <;> rw [ht] at h <;>
      cases hp : mapGet s.problem_id Problem.id problems <;> rw [hp] at h <;>
        simp_all

/-- When the guard holds, the step appends one record and its key. -/
theorem deliveryStep_eq_push {st : List BalloonDelivery × List String}
    {s : Submission} (h : emits teams problems judgements st s = true) :
    ∃ problem, mapGet s.problem_id Problem.id problems = some problem ∧
      deliveryStep teams problems judgements deliveredBalloons st s =
        (st.1 ++ [mkDelivery problem deliveredBalloons st.1 s], st.2 ++ [subKey s]) := by
  unfold emits resolvable at h
  cases ha : isAccepted judgements s <;> rw [ha] at h
  · simp at h
  · cases ht : mapGet s.team_id Team.id teams <;> rw [ht] at h
    · simp at h
    · cases hp : mapGet s.problem_id Problem.id problems <;> rw [hp] at h
      · simp at h
      · have hc : st.2.contains (subKey s) = false := by
          cases hcc : st.2.contains (subKey s)
          · rfl
          · rw [hcc] at h; simp at h
        have hmem : subKey s ∉ st.2 := (contains_eq_false_iff _ _).mp hc
        refine ⟨_, rfl, ?_⟩
        simp [deliveryStep, ha, ht, hp, hc, hmem]

/-- The emission guard implies its membership consequence. -/
theorem emits_not_mem {st : List BalloonDelivery × List String} {s : Submission}
    (h : emits teams problems judgements st s = true) : subKey s ∉ st.2 := by
  unfold emits at h
  refine (contains_eq_false_iff _ _).mp ?_
  cases hcc : st.2.contains (subKey s)
  · rfl
  · rw [hcc] at h; simp at h

/-- Folding the pass only ever appends to both state components. -/
theorem foldl_state_extends :
    ∀ (l : List Submission) (st : List BalloonDelivery × List String),
      ∃ t₁ t₂,
        (List.foldl (deliveryStep teams problems judgements deliveredBalloons) st l).1 =
          st.1 ++ t₁ ∧
        (List.foldl (deliveryStep teams problems judgements deliveredBalloons) st l).2 =
          st.2 ++ t₂ := by
  intro l
  induction l with
  | nil => exact fun st => ⟨[], [], by simp, by simp⟩
  | cons s rest ih =>
    intro st
    cases h : emits teams problems judgements st s with
    | false =>
      rw [List.foldl_cons, deliveryStep_eq_self deliveredBalloons h]
      exact ih st
    | true =>
      obtain ⟨p, _, hstep⟩ := deliveryStep_eq_push deliveredBalloons h
      rw [List.foldl_cons, hstep]
      obtain ⟨t₁, t₂, h1, h2⟩ := ih _
      exact ⟨mkDelivery p deliveredBalloons st.1 s :: t₁, subKey s :: t₂,
        by rw [h1]; simp, by rw [h2]; simp⟩

/-- The processed-key component stays the list of pair keys of the emitted
records throughout the pass. -/
theorem foldl_keys :
    ∀ (l : List Submission) (st : List BalloonDelivery × List String),
      st.2 = st.1.map recKey →
      (List.foldl (deliveryStep teams problems judgements deliveredBalloons) st l).2 =
        (List.foldl (deliveryStep teams problems judgements deliveredBalloons) st l).1.map recKey := by
  intro l
  induction l with
  | nil => exact fun st h => h
  | cons s rest ih =>
    intro st hst
    cases h : emits teams problems judgements st s with
    | false =>
      rw [List.foldl_cons, deliveryStep_eq_self deliveredBalloons h]
      exact ih st hst
    | true =>
      obtain ⟨p, _, hstep⟩ := deliveryStep_eq_push deliveredBalloons h
      rw [List.foldl_cons, hstep]
      refine ih _ ?_
      simp [hst, recKey_mkDelivery]

/-- The pass never emits two records with the same pair key. -/
theorem foldl_nodup :
    ∀ (l : List Submission) (st : List BalloonDelivery × List String),
      st.2 = st.1.map recKey → st.2.Nodup →
      (List.foldl (deliveryStep teams problems judgements deliveredBalloons) st l).2.Nodup := by
  intro l
  induction l with
  | nil => exact fun st _ h => h
  | cons s rest ih =>
    intro st hst hnd
    cases h : emits teams problems judgements st s with
    | false =>
      rw [List.foldl_cons, deliveryStep_eq_self deliveredBalloons h]
      exact ih st hst hnd
    | true =>
      obtain ⟨p, _, hstep⟩ := deliveryStep_eq_push deliveredBalloons h
      rw [List.foldl_cons, hstep]
      have hmem : subKey s ∉ st.2 := emits_not_mem h
      refine ih _ ?_ ?_
      · simp [hst, recKey_mkDelivery]
      · rw [List.nodup_append]
        refine ⟨hnd, by simp, ?_⟩
        intro a ha hb
        rw [List.mem_singleton] at hb
        subst hb
        exact hmem ha

end PassLemmas

section PassLemmas2

variable {teams : List Team} {problems : List Problem} {judgements : List Judgement}
variable (deliveredBalloons : List String)

/-- `resolvable` only looks at the team and problem ids. -/
theorem resolvable_congr {s₁ s₂ : Submission}
    (ht : s₁.team_id = s₂.team_id) (hp : s₁.problem_id = s₂.problem_id) :
    resolvable teams problems s₁ = resolvable teams problems s₂ := by
  unfold resolvable
  rw [ht, hp]

/-- `subKey` only looks at the team and problem ids. -/
theorem subKey_congr {s₁ s₂ : Submission}
    (ht : s₁.team_id = s₂.team_id) (hp : s₁.problem_id = s₂.problem_id) :
    subKey s₁ = subKey s₂ := by
  unfold subKey pairKey
  rw [ht, hp]

/-- The emission guard implies acceptance and resolvability. -/
theorem emits_parts {st : List BalloonDelivery × List String} {s : Submission}
    (h : emits teams problems judgements st s = true) :
    isAccepted judgements s = true ∧ resolvable teams problems s = true := by
  unfold emits at h
  cases ha : isAccepted judgements s <;>
    cases hr : resolvable teams problems s <;> simp_all

/-- Every record the pass emits stems from the first accepted submission
carrying its (teamId, problemId) pair, in list order. -/
theorem foldl_emitted_first :
    ∀ (l : List Submission) (st : List BalloonDelivery × List String),
      st.2 = st.1.map recKey →
      ∀ r ∈ (List.foldl (deliveryStep teams problems judgements deliveredBalloons) st l).1,
        r ∈ st.1 ∨
        ∃ s, l.find? (fun s => isAccepted judgements s &&
              (s.team_id == r.teamId) && (s.problem_id == r.problemId)) = some s ∧
          r.submissionId = s.id ∧ r.teamId = s.team_id ∧ r.problemId = s.problem_id ∧
          resolvable teams problems s = true ∧ subKey s ∉ st.2 := by
  intro l
  induction l with
  | nil => exact fun st _ r hr => Or.inl hr
  | cons s₀ rest ih =>
    intro st hst r hr
    cases h : emits teams problems judgements st s₀ with
    | false =>
      rw [List.foldl_cons, deliveryStep_eq_self deliveredBalloons h] at hr
      rcases ih st hst r hr with hin | ⟨s, hfind, h1, h2, h3, h4, h5⟩
      · exact Or.inl hin
      · refine Or.inr ⟨s, ?_, h1, h2, h3, h4, h5⟩
        rw [List.find?_cons_of_neg]
        · exact hfind
        · intro hpred
          simp only [Bool.and_eq_true, beq_iff_eq] at hpred
          obtain ⟨⟨ha0, hteq⟩, hpeq⟩ := hpred
          have hta : s₀.team_id = s.team_id := hteq.trans h2
          have hpa : s₀.problem_id = s.problem_id := hpeq.trans h3
          have : emits teams problems judgements st s₀ = true := by
            unfold emits
            rw [ha0, resolvable_congr hta hpa, h4, subKey_congr hta hpa,
              (contains_eq_false_iff _ _).mpr h5]
            rfl
          rw [h] at this
          cases this
    | true =>
      obtain ⟨p, hp, hstep⟩ := deliveryStep_eq_push deliveredBalloons h
      rw [List.foldl_cons, hstep] at hr
      have hst' : (st.1 ++ [mkDelivery p deliveredBalloons st.1 s₀], st.2 ++ [subKey s₀]).2 =
          (st.1 ++ [mkDelivery p deliveredBalloons st.1 s₀], st.2 ++ [subKey s₀]).1.map recKey := by
        simp [hst, recKey_mkDelivery]
      rcases ih _ hst' r hr with hin | ⟨s, hfind, h1, h2, h3, h4, h5⟩
      · rw [List.mem_append] at hin
        rcases hin with hin | hin
        · exact Or.inl hin
        · rw [List.mem_singleton] at hin
          subst hin
          refine Or.inr ⟨s₀, ?_, rfl, rfl, rfl, (emits_parts h).2, emits_not_mem h⟩
          rw [List.find?_cons_of_pos]
          simp [(emits_parts h).1, mkDelivery]
      · simp only [List.mem_append, List.mem_singleton, not_or] at h5
        obtain ⟨h5a, h5b⟩ := h5
        refine Or.inr ⟨s, ?_, h1, h2, h3, h4, h5a⟩
        rw [List.find?_cons_of_neg]
        · exact hfind
        · intro hpred
          simp only [Bool.and_eq_true, beq_iff_eq] at hpred
          obtain ⟨⟨_, hteq⟩, hpeq⟩ := hpred
          exact h5b (subKey_congr (hteq.trans h2).symm (hpeq.trans h3).symm)

/-- Any property enjoyed by every freshly built record holds of every record
in the pass output. -/
theorem foldl_records_prop (Q : BalloonDelivery → Prop)
    (hQ : ∀ p ds s, Q (mkDelivery p deliveredBalloons ds s)) :
    ∀ (l : List Submission) (st : List BalloonDelivery × List String),
      (∀ r ∈ st.1, Q r) →
      ∀ r ∈ (List.foldl (deliveryStep teams problems judgements deliveredBalloons) st l).1, Q r := by
  intro l
  induction l with
  | nil => exact fun st h r hr => h r hr
  | cons s rest ih =>
    intro st hbase r hr
    cases h : emits teams problems judgements st s with
    | false =>
      rw [List.foldl_cons, deliveryStep_eq_self deliveredBalloons h] at hr
      exact ih st hbase r hr
    | true =>
      obtain ⟨p, _, hstep⟩ := deliveryStep_eq_push deliveredBalloons h
      rw [List.foldl_cons, hstep] at hr
      refine ih _ ?_ r hr
      intro x hx
      rw [List.mem_append] at hx
      rcases hx with hx | hx
      · exact hbase x hx
      · rw [List.mem_singleton] at hx
        subst hx
        exact hQ p st.1 s

/-- A pass started from a non-empty record list marks no further record as
first AC in contest. -/
theorem foldl_flags_false :
    ∀ (l : List Submission) (st : List BalloonDelivery × List String), st.1 ≠ [] →
      ∀ r ∈ (List.foldl (deliveryStep teams problems judgements deliveredBalloons) st l).1,
        r ∈ st.1 ∨ r.isFirstACInContest = false := by
  intro l
  induction l with
  | nil => exact fun st _ r hr => Or.inl hr
  | cons s rest ih =>
    intro st hne r hr
    cases h : emits teams problems judgements st s with
    | false =>
      rw [List.foldl_cons, deliveryStep_eq_self deliveredBalloons h] at hr
      exact ih st hne r hr
    | true =>
      obtain ⟨p, _, hstep⟩ := deliveryStep_eq_push deliveredBalloons h
      rw [List.foldl_cons, hstep] at hr
      have hflag : (mkDelivery p deliveredBalloons st.1 s).isFirstACInContest = false := by
        obtain ⟨x, xs, hx⟩ : ∃ x xs, st.1 = x :: xs := by
          cases hh : st.1 with
          | nil => exact absurd hh hne
          | cons x xs => exact ⟨x, xs, rfl⟩
        simp [mkDelivery, hx]
      rcases ih _ (by simp) r hr with hin | hfalse
      · rw [List.mem_append] at hin
        rcases hin with hin | hin
        · exact Or.inl hin
        · rw [List.mem_singleton] at hin
          subst hin
          exact Or.inr hflag
      · exact Or.inr hfalse

end PassLemmas2

section PassLemmas3

variable {teams : List Team} {problems : List Problem} {judgements : List Judgement}
variable (deliveredBalloons : List String)

/-- A pass from the empty state emits no record when no submission is both
accepted and resolvable; otherwise its first record is built from the first
accepted and resolvable submission, and only that first record can carry the
first-AC-in-contest flag. -/
theorem first_emit (l : List Submission) :
    (l.find? (fun s => isAccepted judgements s && resolvable teams problems s) = none →
       (List.foldl (deliveryStep teams problems judgements deliveredBalloons)
          (([], []) : List BalloonDelivery × List String) l).1 = []) ∧
    (∀ s, l.find? (fun s => isAccepted judgements s && resolvable teams problems s) = some s →
       ∃ problem t, mapGet s.problem_id Problem.id problems = some problem ∧
         (List.foldl (deliveryStep teams problems judgements deliveredBalloons)
            (([], []) : List BalloonDelivery × List String) l).1 =
           mkDelivery problem deliveredBalloons [] s :: t ∧
         (∀ r ∈ t, r.isFirstACInContest = false)) := by
  induction l with
  | nil => exact ⟨fun _ => rfl, fun s hs => by simp at hs⟩
  | cons s₀ rest ih =>
    cases hg : (isAccepted judgements s₀ && resolvable teams problems s₀) with
    | false =>
      have hemits : emits teams problems judgements (([], []) : List BalloonDelivery × List String) s₀ = false := by
        unfold emits
        cases ha : isAccepted judgements s₀ <;>
          cases hr : resolvable teams problems s₀ <;> simp_all
      constructor
      · intro hnone
        rw [List.find?_cons_of_neg _ (by rw [hg]; simp)] at hnone
        rw [List.foldl_cons, deliveryStep_eq_self deliveredBalloons hemits]
        exact ih.1 hnone
      · intro s hs
        rw [List.find?_cons_of_neg _ (by rw [hg]; simp)] at hs
        rw [List.foldl_cons, deliveryStep_eq_self deliveredBalloons hemits]
        exact ih.2 s hs
    | true =>
      have hparts : isAccepted judgements s₀ = true ∧ resolvable teams problems s₀ = true := by
        constructor <;> [skip; skip] <;>
          cases ha : isAccepted judgements s₀ <;>
            cases hr : resolvable teams problems s₀ <;> simp_all
      have hemits : emits teams problems judgements (([], []) : List BalloonDelivery × List String) s₀ = true := by
        unfold emits
        rw [hparts.1, hparts.2]
        rfl
      obtain ⟨p, hp, hstep⟩ := deliveryStep_eq_push deliveredBalloons hemits
      constructor
      · intro hnone
        rw [@List.find?_cons_of_pos _ (fun s => isAccepted judgements s &&
          resolvable teams problems s) s₀ rest hg] at hnone
        cases hnone
      · intro s hs
        rw [@List.find?_cons_of_pos _ (fun s => isAccepted judgements s &&
          resolvable teams problems s) s₀ rest hg] at hs
        injection hs with hs
        subst hs
        obtain ⟨t₁, t₂, h1, h2⟩ := @foldl_state_extends teams problems judgements
          deliveredBalloons rest ([mkDelivery p deliveredBalloons [] s₀], [subKey s₀])
        refine ⟨p, t₁, hp, ?_, ?_⟩
        · rw [List.foldl_cons, hstep]
          show (List.foldl (deliveryStep teams problems judgements deliveredBalloons)
              ([mkDelivery p deliveredBalloons [] s₀], [subKey s₀]) rest).1 =
            mkDelivery p deliveredBalloons [] s₀ :: t₁
          rw [h1]
          rfl
        intro r hr
        have hrmem : r ∈ (List.foldl (deliveryStep teams problems judgements deliveredBalloons)
            ([mkDelivery p deliveredBalloons [] s₀], [subKey s₀]) rest).1 := by
          rw [h1]
          exact List.mem_append_right _ hr
        rcases foldl_flags_false deliveredBalloons rest _ (by simp) r hrmem with hin | hfalse
        · rw [List.mem_singleton] at hin
          subst hin
          have hkeys := @foldl_keys teams problems judgements deliveredBalloons rest
            ([mkDelivery p deliveredBalloons [] s₀], [subKey s₀]) (by simp [recKey_mkDelivery])
          have hnd := @foldl_nodup teams problems judgements deliveredBalloons rest
            ([mkDelivery p deliveredBalloons [] s₀], [subKey s₀]) (by simp [recKey_mkDelivery]) (by simp)
          rw [hkeys, h1, List.map_append, List.nodup_append] at hnd
          exact absurd (List.mem_map_of_mem recKey hr) (hnd.2.2 (by simp))
        · exact hfalse

/-- Two delivered-sets with the same membership yield the same record. -/
theorem mkDelivery_del_congr {del₁ del₂ : List String}
    (h : ∀ k, del₁.contains k = del₂.contains k)
    (p : Problem) (ds : List BalloonDelivery) (s : Submission) :
    mkDelivery p del₁ ds s = mkDelivery p del₂ ds s := by
  unfold mkDelivery
  rw [h (subKey s)]

/-- Two delivered-sets with the same membership drive the step identically. -/
theorem deliveryStep_del_congr {del₁ del₂ : List String}
    (h : ∀ k, del₁.contains k = del₂.contains k)
    (st : List BalloonDelivery × List String) (s : Submission) :
    deliveryStep teams problems judgements del₁ st s =
      deliveryStep teams problems judgements del₂ st s := by
  cases ha : isAccepted judgements s <;>
    [simp [deliveryStep, ha];
     cases ht : mapGet s.team_id Team.id teams <;>
       cases hp : mapGet s.problem_id Problem.id problems <;>
         simp [deliveryStep, ha, ht, hp, mkDelivery_del_congr h]]

/-- Two delivered-sets with the same membership drive the pass identically. -/
theorem foldl_del_congr {del₁ del₂ : List String}
    (h : ∀ k, del₁.contains k = del₂.contains k) :
    ∀ (l : List Submission) (st : List BalloonDelivery × List String),
      List.foldl (deliveryStep teams problems judgements del₁) st l =
        List.foldl (deliveryStep teams problems judgements del₂) st l := by
  intro l
  induction l with
  | nil => exact fun _ => rfl
  | cons s rest ih =>
    intro st
    rw [List.foldl_cons, List.foldl_cons, deliveryStep_del_congr h]
    exact ih _

/-- The submission ids of the pass output form a subsequence of the input
submission ids: output order follows pass order. -/
theorem foldl_ids_sublist :
    ∀ (l : List Submission) (st : List BalloonDelivery × List String),
      List.Sublist
        ((List.foldl (deliveryStep teams problems judgements deliveredBalloons) st l).1.map
          BalloonDelivery.submissionId)
        (st.1.map BalloonDelivery.submissionId ++ l.map Submission.id) := by
  intro l
  induction l with
  | nil => intro st; simp
  | cons s rest ih =>
    intro st
    cases h : emits teams problems judgements st s with
    | false =>
      rw [List.foldl_cons, deliveryStep_eq_self deliveredBalloons h]
      refine (ih st).trans ?_
      rw [List.map_cons]
      exact List.Sublist.append_left (List.sublist_cons_of_sublist _ (List.Sublist.refl _)) _
    | true =>
      obtain ⟨p, _, hstep⟩ := deliveryStep_eq_push deliveredBalloons h
      rw [List.foldl_cons, hstep]
      refine (ih _).trans ?_
      rw [List.map_cons, List.map_append]
      rw [List.append_assoc]
      exact List.Sublist.refl _

end PassLemmas3

/-- A successful `find?` splits the list at the first match. -/
theorem find?_eq_some_split {α : Type} (p : α → Bool) :
    ∀ (l : List α) (a : α), l.find? p = some a →
      p a = true ∧ ∃ l₁ l₂, l = l₁ ++ a :: l₂ ∧ ∀ x ∈ l₁, p x = false := by
  intro l
  induction l with
  | nil => intro a h; simp at h
  | cons x xs ih =>
    intro a h
    cases hx : p x with
    | true =>
      rw [List.find?_cons_of_pos _ hx] at h
      injection h with h
      subst h
      exact ⟨hx, [], xs, rfl, by simp⟩
    | false =>
      rw [List.find?_cons_of_neg _ (by simp [hx])] at h
      obtain ⟨hpa, l₁, l₂, hsplit, hall⟩ := ih a h
      refine ⟨hpa, x :: l₁, l₂, by rw [hsplit]; rfl, ?_⟩
      intro y hy
      rcases List.mem_cons.mp hy with hy | hy
      · subst hy; exact hx
      · exact hall y hy

/-- Folding `markStep` over records that do not match the id just copies
them and leaves the delivered set alone. -/
theorem mark_fold_skip (deliveryId now : String) :
    ∀ (l : List BalloonDelivery) (acc : List BalloonDelivery) (s : List String),
      (∀ x ∈ l, (x.id == deliveryId) = false) →
      List.foldl (markStep deliveryId now) (acc, s) l = (acc ++ l, s) := by
  intro l
  induction l with
  | nil => intro acc s _; simp
  | cons x xs ih =>
    intro acc s hall
    have hx : (x.id == deliveryId) = false := hall x (by simp)
    rw [List.foldl_cons]
    have hstep : markStep deliveryId now (acc, s) x = (acc ++ [x], s) := by
      simp [markStep, hx]
    rw [hstep, ih _ _ (fun y hy => hall y (List.mem_cons_of_mem _ hy))]
    simp

/-- Unfolding `processDeliveries` when all four collections are present. -/
theorem processDeliveries_eq (cd : ContestData) (del : List String)
    {subs : List Submission} {teams : List Team} {probs : List Problem} {judgs : List Judgement}
    (hs : cd.submissions = some subs) (ht : cd.teams = some teams)
    (hp : cd.problems = some probs) (hj : cd.judgements = some judgs) :
    processDeliveries (some cd) del =
      (List.foldl (deliveryStep teams probs judgs del)
        (([], []) : List BalloonDelivery × List String) (sortByKey submissionLt subs)).1 := by
  have hmatch : processDeliveries (some cd) del =
      match cd.submissions, cd.teams, cd.problems, cd.judgements with
      | some submissions, some teams, some problems, some judgements =>
        (List.foldl (deliveryStep teams problems judgements del)
          (([], []) : List BalloonDelivery × List String)
          (sortByKey submissionLt submissions)).1
      | _, _, _, _ => [] := rfl
  rw [hmatch, hs, ht, hp, hj]

/-- A snapshot missing any collection derives to the empty list. -/
theorem processDeliveries_fields_none (cd : ContestData) (del : List String)
    (h : cd.submissions = none ∨ cd.teams = none ∨ cd.problems = none ∨
      cd.judgements = none) :
    processDeliveries (some cd) del = [] := by
  cases hs : cd.submissions <;> cases ht : cd.teams <;>
    cases hp : cd.problems <;> cases hj : cd.judgements <;>
      simp_all [processDeliveries]

/-- Every derivation either hits the missing-collection guard or is the fold
over the sorted submissions. -/
theorem processDeliveries_cases (cd : ContestData) (del : List String) :
    processDeliveries (some cd) del = [] ∨
    ∃ subs teams probs judgs,
      cd.submissions = some subs ∧ cd.teams = some teams ∧ cd.problems = some probs ∧
      cd.judgements = some judgs ∧
      processDeliveries (some cd) del =
        (List.foldl (deliveryStep teams probs judgs del)
          (([], []) : List BalloonDelivery × List String) (sortByKey submissionLt subs)).1 := by
  cases hs : cd.submissions with
  | none => exact Or.inl (processDeliveries_fields_none cd del (Or.inl hs))
  | some subs =>
    cases ht : cd.teams with
    | none => exact Or.inl (processDeliveries_fields_none cd del (Or.inr (Or.inl ht)))
    | some teams =>
      cases hp : cd.problems with
      | none => exact Or.inl (processDeliveries_fields_none cd del (Or.inr (Or.inr (Or.inl hp))))
      | some probs =>
        cases hj : cd.judgements with
        | none =>
          exact Or.inl (processDeliveries_fields_none cd del (Or.inr (Or.inr (Or.inr hj))))
        | some judgs =>
          exact Or.inr ⟨subs, teams, probs, judgs, rfl, rfl, rfl, rfl,
            processDeliveries_eq cd del hs ht hp hj⟩

/-! ### Concrete scenario data -/

/-- Submissions of the two-team scenario from the specification: ids "2"
(team A) and "1" (team B), both for problem X. -/
def scenarioSubs : List Submission :=
  [⟨"2", "A", "X", "T2"⟩, ⟨"1", "B", "X", "T1"⟩]

/-- Teams of the scenario. -/
def scenarioTeams : List Team :=
  [⟨"A", "Team A"⟩, ⟨"B", "Team B"⟩]

/-- Problems of the scenario. -/
def scenarioProblems : List Problem :=
  [⟨"X", "Problem X", "#ff0000"⟩]

/-- Both scenario submissions are accepted. -/
def scenarioJudgements : List Judgement :=
  [⟨"1", "AC"⟩, ⟨"2", "AC"⟩]

/-- The scenario snapshot. -/
def scenarioData : ContestData :=
  ⟨some scenarioSubs, some scenarioTeams, some scenarioProblems, some scenarioJudgements⟩

/-- The record the deriver emits first on the scenario with an empty
delivered-set. -/
def rBpending : BalloonDelivery :=
  ⟨"delivery-1", "B", "X", "X", "1", "T1", DeliveryStatus.pending, none,
   "First AC in contest! 🥇 FIRST SOLVE of this problem!", true, true, true⟩

/-- The record the deriver emits first on the scenario when the pair B-X is
already marked delivered. -/
def rBdelivered : BalloonDelivery :=
  ⟨"delivery-1", "B", "X", "X", "1", "T1", DeliveryStatus.delivered, some "T1",
   "First AC in contest! 🥇 FIRST SOLVE of this problem!", true, true, true⟩

/-- Snapshot whose earliest accepted submission references an unknown team. -/
def dangSubs : List Submission :=
  [⟨"1", "ghost", "X", "T1"⟩, ⟨"2", "A", "X", "T2"⟩]

/-- Teams of the dangling-reference snapshot (no team "ghost"). -/
def dangTeams : List Team :=
  [⟨"A", "Team A"⟩]

/-- Problems of the dangling-reference snapshot. -/
def dangProblems : List Problem :=
  [⟨"X", "Problem X", "#00ff00"⟩]

/-- Both submissions of the dangling-reference snapshot are accepted. -/
def dangJudgs : List Judgement :=
  [⟨"1", "AC"⟩, ⟨"2", "AC"⟩]

/-- The dangling-reference snapshot. -/
def dangData : ContestData :=
  ⟨some dangSubs, some dangTeams, some dangProblems, some dangJudgs⟩

/-! ### Claims -/

/-- C1: for every snapshot and delivered-set, the derivation output has at
most one record per distinct (teamId, problemId) pair, and every record
stems from the first accepted submission carrying its pair in the sort
order, so later accepted submissions for the same pair produce no record. -/
theorem C1_uniqueness_first_wins
    (cd : ContestData) (deliveredBalloons : List String)
    (subs : List Submission) (teams : List Team) (probs : List Problem)
    (judgs : List Judgement)
    (hs : cd.submissions = some subs) (ht : cd.teams = some teams)
    (hp : cd.problems = some probs) (hj : cd.judgements = some judgs) :
    ((processDeliveries (some cd) deliveredBalloons).map
        (fun r => (r.teamId, r.problemId))).Nodup ∧
    ∀ r ∈ processDeliveries (some cd) deliveredBalloons,
      ∃ s, (sortByKey submissionLt subs).find?
          (fun s => isAccepted judgs s && (s.team_id == r.teamId) &&
            (s.problem_id == r.problemId)) = some s ∧
        r.submissionId = s.id ∧ r.teamId = s.team_id ∧ r.problemId = s.problem_id := by
  have heq := processDeliveries_eq cd deliveredBalloons hs ht hp hj
  constructor
  · rw [heq]
    have hkeys := @foldl_keys teams probs judgs deliveredBalloons
      (sortByKey submissionLt subs) ([], []) rfl
    have hnd := @foldl_nodup teams probs judgs deliveredBalloons
      (sortByKey submissionLt subs) ([], []) rfl (by simp)
    rw [hkeys] at hnd
    refine List.Nodup.of_map (fun q : String × String => pairKey q.1 q.2) ?_
    rw [List.map_map]
    exact hnd
  · intro r hr
    rw [heq] at hr
    rcases @foldl_emitted_first teams probs judgs deliveredBalloons
      (sortByKey submissionLt subs) ([], []) rfl r hr with hin | ⟨s, hfind, h1, h2, h3, _, _⟩
    · exact absurd hin (List.not_mem_nil r)
    · exact ⟨s, hfind, h1, h2, h3⟩

/-- Witness for C1: distinctness of the pairs on the concrete scenario. -/
theorem C1_witness :
    ((processDeliveries (some scenarioData) []).map
        (fun r => (r.teamId, r.problemId))).Nodup :=
  (C1_uniqueness_first_wins scenarioData [] scenarioSubs scenarioTeams
    scenarioProblems scenarioJudgements rfl rfl rfl rfl).1

/-- C2: the deriver sorts by the numeric-aware comparator on `id` (numeric
when both ids parse, string comparison otherwise), output order follows the
sort order, and on the concrete two-submission scenario the record for id
"1" (team B, both first-solve flags set) precedes the record for id "2"
(team A, both flags false). -/
theorem C2_sort_and_scenario :
    (∀ (a b : Submission) (na nb : Int), jsParseInt a.id = some na →
       jsParseInt b.id = some nb → submissionLt a b = decide (na < nb)) ∧
    (∀ a b : Submission, jsParseInt a.id = none ∨ jsParseInt b.id = none →
       submissionLt a b = (compare a.id b.id == Ordering.lt)) ∧
    (∀ (cd : ContestData) (deliveredBalloons : List String)
       (subs : List Submission) (teams : List Team) (probs : List Problem)
       (judgs : List Judgement),
       cd.submissions = some subs → cd.teams = some teams →
       cd.problems = some probs → cd.judgements = some judgs →
       List.Sublist
         ((processDeliveries (some cd) deliveredBalloons).map BalloonDelivery.submissionId)
         ((sortByKey submissionLt subs).map Submission.id)) ∧
    (processDeliveries (some scenarioData) []).map
        (fun r => (r.submissionId, r.teamId, r.isFirstSolve, r.isFirstACInContest)) =
      [("1", "B", true, true), ("2", "A", false, false)] := by
  refine ⟨?_, ?_, ?_, by decide⟩
  · intro a b na nb h1 h2
    simp [submissionLt, h1, h2]
  · intro a b h
    rcases h with h | h
    · cases h2 : jsParseInt b.id <;> simp [submissionLt, h, h2]
    · cases h1 : jsParseInt a.id <;> simp [submissionLt, h, h1]
  · intro cd deliveredBalloons subs teams probs judgs hs ht hp hj
    rw [processDeliveries_eq cd deliveredBalloons hs ht hp hj]
    simpa using @foldl_ids_sublist teams probs judgs deliveredBalloons
      (sortByKey submissionLt subs) ([], [])

/-- Witness for C2: on ids "2" and "1" the comparator takes the numeric
branch. -/
theorem C2_witness :
    submissionLt ⟨"2", "A", "X", "T2"⟩ ⟨"1", "B", "X", "T1"⟩ =
      decide ((2 : Int) < 1) :=
  C2_sort_and_scenario.1 ⟨"2", "A", "X", "T2"⟩ ⟨"1", "B", "X", "T1"⟩ 2 1
    (by decide) (by decide)

/-- C3: the derivation is a pure function of its two inputs — value-equal
snapshots and delivered-sets with the same membership produce value-equal
output lists (same records, same fields, same order). -/
theorem C3_deterministic (cd₁ cd₂ : Option ContestData) (del₁ del₂ : List String)
    (hcd : cd₁ = cd₂) (hdel : ∀ k, del₁.contains k = del₂.contains k) :
    processDeliveries cd₁ del₁ = processDeliveries cd₂ del₂ := by
  subst hcd
  cases cd₁ with
  | none => rfl
  | some cd =>
    cases hs : cd.submissions with
    | none =>
      rw [processDeliveries_fields_none cd del₁ (Or.inl hs),
        processDeliveries_fields_none cd del₂ (Or.inl hs)]
    | some subs =>
      cases ht : cd.teams with
      | none =>
        rw [processDeliveries_fields_none cd del₁ (Or.inr (Or.inl ht)),
          processDeliveries_fields_none cd del₂ (Or.inr (Or.inl ht))]
      | some teams =>
        cases hp : cd.problems with
        | none =>
          rw [processDeliveries_fields_none cd del₁ (Or.inr (Or.inr (Or.inl hp))),
            processDeliveries_fields_none cd del₂ (Or.inr (Or.inr (Or.inl hp)))]
        | some probs =>
          cases hj : cd.judgements with
          | none =>
            rw [processDeliveries_fields_none cd del₁ (Or.inr (Or.inr (Or.inr hj))),
              processDeliveries_fields_none cd del₂ (Or.inr (Or.inr (Or.inr hj)))]
          | some judgs =>
            rw [processDeliveries_eq cd del₁ hs ht hp hj,
              processDeliveries_eq cd del₂ hs ht hp hj, foldl_del_congr hdel]

/-- Witness for C3: a duplicated key in the delivered-set does not change
the output. -/
theorem C3_witness :
    processDeliveries (some scenarioData) ["B-X", "B-X"] =
      processDeliveries (some scenarioData) ["B-X"] :=
  C3_deterministic (some scenarioData) (some scenarioData) ["B-X", "B-X"] ["B-X"]
    rfl (fun k => by simp [List.contains])

/-- C4: a snapshot missing or nulling any of the four collections derives
to the empty list, whatever the other collections and the delivered-set
hold, and no error is raised (the function is total). -/
theorem C4_missing_collection (cd : ContestData) (del : List String)
    (h : cd.submissions = none ∨ cd.teams = none ∨ cd.problems = none ∨
      cd.judgements = none) :
    processDeliveries (some cd) del = [] :=
  processDeliveries_fields_none cd del h

/-- Witness for C4: missing submissions with everything else present. -/
theorem C4_witness :
    processDeliveries (some ⟨none, some scenarioTeams, some scenarioProblems,
      some scenarioJudgements⟩) ["B-X"] = [] :=
  C4_missing_collection
    ⟨none, some scenarioTeams, some scenarioProblems, some scenarioJudgements⟩
    ["B-X"] (Or.inl rfl)

/-- C5: a record whose pair key is in the delivered-set is emitted with
status `delivered` and `deliveredAt` equal to the originating submission's
time (its `requestedAt`); a record whose key is absent is emitted with
status `pending` and no `deliveredAt`. -/
theorem C5_status_merge (cd : Option ContestData) (deliveredBalloons : List String) :
    ∀ r ∈ processDeliveries cd deliveredBalloons,
      (deliveredBalloons.contains (recKey r) = true →
         r.status = DeliveryStatus.delivered ∧ r.deliveredAt = some r.requestedAt) ∧
      (deliveredBalloons.contains (recKey r) = false →
         r.status = DeliveryStatus.pending ∧ r.deliveredAt = none) := by
  intro r hr
  cases cd with
  | none => exact absurd hr (List.not_mem_nil r)
  | some cd =>
    rcases processDeliveries_cases cd deliveredBalloons with
      hnil | ⟨subs, teams, probs, judgs, _, _, _, _, heq⟩
    · rw [hnil] at hr
      exact absurd hr (List.not_mem_nil r)
    · rw [heq] at hr
      refine @foldl_records_prop teams probs judgs deliveredBalloons
        (fun r =>
          (deliveredBalloons.contains (recKey r) = true →
            r.status = DeliveryStatus.delivered ∧ r.deliveredAt = some r.requestedAt) ∧
          (deliveredBalloons.contains (recKey r) = false →
            r.status = DeliveryStatus.pending ∧ r.deliveredAt = none))
        ?_ (sortByKey submissionLt subs) ([], [])
        (fun x hx => absurd hx (List.not_mem_nil x)) r hr
      intro p ds s
      constructor
      · intro hcon
        rw [recKey_mkDelivery] at hcon
        have hmem : subKey s ∈ deliveredBalloons := by
          simpa [List.contains] using hcon
        exact ⟨by simp [mkDelivery, hmem], by simp [mkDelivery, hmem]⟩
      · intro hcon
        rw [recKey_mkDelivery] at hcon
        have hmem : subKey s ∉ deliveredBalloons := (contains_eq_false_iff _ _).mp hcon
        exact ⟨by simp [mkDelivery, hmem], by simp [mkDelivery, hmem]⟩

/-- Witness for C5: the scenario with pair B-X pre-marked delivered. -/
theorem C5_witness :
    (["B-X"].contains (recKey rBdelivered) = true →
       rBdelivered.status = DeliveryStatus.delivered ∧
       rBdelivered.deliveredAt = some rBdelivered.requestedAt) ∧
    (["B-X"].contains (recKey rBdelivered) = false →
       rBdelivered.status = DeliveryStatus.pending ∧
       rBdelivered.deliveredAt = none) :=
  C5_status_merge (some scenarioData) ["B-X"] rBdelivered (by decide)

/-- Counterexample to C6 as stated: when the globally-first accepted
submission (id "1") references an unknown team, the unique record with
`isFirstACInContest = true` arises from a different submission (id "2"),
so it is not "the one arising from the globally-first accepted submission
in sort order". -/
theorem C6_counterexample :
    ¬ (∀ r ∈ processDeliveries (some dangData) [],
        r.isFirstACInContest = true →
        ((sortByKey submissionLt dangSubs).find?
            (fun s => isAccepted dangJudgs s)).map Submission.id =
          some r.submissionId) := by
  decide

/-- C6 (amended): in every non-empty derivation output exactly one record
has `isFirstACInContest = true`, namely the first record emitted in the
pass — the one arising from the first accepted submission, in sort order,
that resolves to a known team and problem; every other record has the flag
false. -/
theorem C6_first_flag (cd : ContestData) (del : List String)
    (subs : List Submission) (teams : List Team) (probs : List Problem)
    (judgs : List Judgement)
    (hs : cd.submissions = some subs) (ht : cd.teams = some teams)
    (hp : cd.problems = some probs) (hj : cd.judgements = some judgs)
    (hne : processDeliveries (some cd) del ≠ []) :
    ∃ s problem t,
      (sortByKey submissionLt subs).find?
        (fun s => isAccepted judgs s && resolvable teams probs s) = some s ∧
      mapGet s.problem_id Problem.id probs = some problem ∧
      processDeliveries (some cd) del = mkDelivery problem del [] s :: t ∧
      (mkDelivery problem del [] s).isFirstACInContest = true ∧
      ∀ r ∈ t, r.isFirstACInContest = false := by
  have heq := processDeliveries_eq cd del hs ht hp hj
  cases hfind : (sortByKey submissionLt subs).find?
      (fun s => isAccepted judgs s && resolvable teams probs s) with
  | none =>
    exact absurd (heq.trans ((@first_emit teams probs judgs del
      (sortByKey submissionLt subs)).1 hfind)) hne
  | some s =>
    obtain ⟨problem, t, hpb, hout, hflags⟩ :=
      (@first_emit teams probs judgs del (sortByKey submissionLt subs)).2 s hfind
    exact ⟨s, problem, t, rfl, hpb, heq.trans hout, rfl, hflags⟩

/-- Witness for C6 on the dangling-reference snapshot, whose output is
non-empty. -/
theorem C6_witness :
    ∃ s problem t,
      (sortByKey submissionLt dangSubs).find?
        (fun s => isAccepted dangJudgs s && resolvable dangTeams dangProblems s) = some s ∧
      mapGet s.problem_id Problem.id dangProblems = some problem ∧
      processDeliveries (some dangData) [] = mkDelivery problem [] [] s :: t ∧
      (mkDelivery problem [] [] s).isFirstACInContest = true ∧
      ∀ r ∈ t, r.isFirstACInContest = false :=
  C6_first_flag dangData [] dangSubs dangTeams dangProblems dangJudgs
    rfl rfl rfl rfl (by decide)

/-- C7: an accepted submission whose team or problem reference dangles
produces no record and leaves the pass state untouched, and deleting it
from any position of the pass sequence leaves the whole pass result
unchanged (no error is raised; the function is total). -/
theorem C7_dangling_skip (teams : List Team) (probs : List Problem)
    (judgs : List Judgement) (del : List String) (s : Submission)
    (hd : mapGet s.team_id Team.id teams = none ∨
      mapGet s.problem_id Problem.id probs = none) :
    (∀ st, deliveryStep teams probs judgs del st s = st) ∧
    (∀ (l₁ l₂ : List Submission) (st : List BalloonDelivery × List String),
       List.foldl (deliveryStep teams probs judgs del) st (l₁ ++ s :: l₂) =
         List.foldl (deliveryStep teams probs judgs del) st (l₁ ++ l₂)) := by
  have hstep : ∀ st, deliveryStep teams probs judgs del st s = st := by
    intro st
    apply deliveryStep_eq_self
    unfold emits resolvable
    rcases hd with h | h <;> simp [h]
  refine ⟨hstep, ?_⟩
  intro l₁ l₂ st
  rw [List.foldl_append, List.foldl_append, List.foldl_cons, hstep]

/-- Witness for C7: a submission referencing an unknown team is a no-op
for the pass. -/
theorem C7_witness :
    deliveryStep [] [] [] [] (([], []) : List BalloonDelivery × List String)
      ⟨"9", "G", "X", "T"⟩ = ([], []) :=
  (C7_dangling_skip [] [] [] [] ⟨"9", "G", "X", "T"⟩ (Or.inl rfl)).1 ([], [])

/-- Eleven delivered records with strictly increasing delivery times. -/
def elevenDelivered : List BalloonDelivery :=
  [⟨"d01", "T01", "P", "P", "01", "t01", DeliveryStatus.delivered, some "t01", "", false, false, false⟩,
   ⟨"d02", "T02", "P", "P", "02", "t02", DeliveryStatus.delivered, some "t02", "", false, false, false⟩,
   ⟨"d03", "T03", "P", "P", "03", "t03", DeliveryStatus.delivered, some "t03", "", false, false, false⟩,
   ⟨"d04", "T04", "P", "P", "04", "t04", DeliveryStatus.delivered, some "t04", "", false, false, false⟩,
   ⟨"d05", "T05", "P", "P", "05", "t05", DeliveryStatus.delivered, some "t05", "", false, false, false⟩,
   ⟨"d06", "T06", "P", "P", "06", "t06", DeliveryStatus.delivered, some "t06", "", false, false, false⟩,
   ⟨"d07", "T07", "P", "P", "07", "t07", DeliveryStatus.delivered, some "t07", "", false, false, false⟩,
   ⟨"d08", "T08", "P", "P", "08", "t08", DeliveryStatus.delivered, some "t08", "", false, false, false⟩,
   ⟨"d09", "T09", "P", "P", "09", "t09", DeliveryStatus.delivered, some "t09", "", false, false, false⟩,
   ⟨"d10", "T10", "P", "P", "10", "t10", DeliveryStatus.delivered, some "t10", "", false, false, false⟩,
   ⟨"d11", "T11", "P", "P", "11", "t11", DeliveryStatus.delivered, some "t11", "", false, false, false⟩]

/-- Counterexample to C8 as stated: with eleven delivered records in
ascending delivery-time order, the `recent` side keeps the ten oldest
(`t01`–`t10`) and drops the most recent record (`t11`), so it is the first
ten of the filtered list, not the most-recent ten. -/
theorem C8_counterexample :
    ((elevenDelivered.filter
        (fun d => decide (d.status = DeliveryStatus.delivered ∨
          d.status = DeliveryStatus.confirmed))).map
      (fun d => d.deliveredAt)) =
      [some "t01", some "t02", some "t03", some "t04", some "t05", some "t06",
       some "t07", some "t08", some "t09", some "t10", some "t11"] ∧
    ((partitionDeliveries elevenDelivered).2.map (fun d => d.deliveredAt)) =
      [some "t01", some "t02", some "t03", some "t04", some "t05", some "t06",
       some "t07", some "t08", some "t09", some "t10"] ∧
    (∀ d ∈ (partitionDeliveries elevenDelivered).2, d.deliveredAt ≠ some "t11") := by
  refine ⟨by decide, by decide, by decide⟩

/-- C8 (amended): `partition` returns `pending` = exactly the records with
status `pending` or `assigned` in input order, and `recent` = the first ten
records with status `delivered` or `confirmed` in input order (a prefix of
the filtered list, not the most-recent ten), with no re-sort by delivery
time (both sides are sublists of the input). -/
theorem C8_partition (l : List BalloonDelivery) :
    (partitionDeliveries l).1 =
      l.filter (fun d => decide (d.status = DeliveryStatus.pending ∨
        d.status = DeliveryStatus.assigned)) ∧
    (partitionDeliveries l).2 =
      (l.filter (fun d => decide (d.status = DeliveryStatus.delivered ∨
        d.status = DeliveryStatus.confirmed))).take 10 ∧
    (partitionDeliveries l).2.length ≤ 10 ∧
    List.Sublist (partitionDeliveries l).1 l ∧
    List.Sublist (partitionDeliveries l).2 l ∧
    (∀ d ∈ (partitionDeliveries l).1,
      d.status = DeliveryStatus.pending ∨ d.status = DeliveryStatus.assigned) ∧
    (∀ d ∈ (partitionDeliveries l).2,
      d.status = DeliveryStatus.delivered ∨ d.status = DeliveryStatus.confirmed) := by
  refine ⟨rfl, rfl, List.length_take_le _ _, List.filter_sublist l,
    (List.take_sublist _ _).trans (List.filter_sublist l), ?_, ?_⟩
  · intro d hd
    have := List.of_mem_filter hd
    simpa using this
  · intro d hd
    have hd' := (List.take_sublist 10 _).subset hd
    have := List.of_mem_filter hd'
    simpa using this

/-- Witness for C8: a delivered record lands on the `recent` side. -/
theorem C8_witness :
    (⟨"d01", "T01", "P", "P", "01", "t01", DeliveryStatus.delivered, some "t01",
        "", false, false, false⟩ : BalloonDelivery).status = DeliveryStatus.delivered ∨
    (⟨"d01", "T01", "P", "P", "01", "t01", DeliveryStatus.delivered, some "t01",
        "", false, false, false⟩ : BalloonDelivery).status = DeliveryStatus.confirmed :=
  (C8_partition elevenDelivered).2.2.2.2.2.2
    ⟨"d01", "T01", "P", "P", "01", "t01", DeliveryStatus.delivered, some "t01",
      "", false, false, false⟩ (by decide)

/-- C9: `markAsDelivered` on an id absent from the list is a no-op on both
the record list and the delivered-set; on a present id (record ids are
unique in a derived list) it splits the list around that record, replaces
only its `status` and `deliveredAt` with `delivered` and the current time,
adds its pair key to the delivered-set, and leaves every other record and
field unchanged. -/
theorem C9_markDelivered (deliveryId now : String)
    (ds : List BalloonDelivery) (del : List String) :
    (ds.find? (fun d => d.id == deliveryId) = none →
       markAsDelivered deliveryId now ds del = (ds, del)) ∧
    (∀ d₀, ds.find? (fun d => d.id == deliveryId) = some d₀ →
       (ds.map BalloonDelivery.id).Nodup →
       ∃ l₁ l₂, ds = l₁ ++ d₀ :: l₂ ∧
         (markAsDelivered deliveryId now ds del).1 =
           l₁ ++ { d₀ with
                   status := DeliveryStatus.delivered,
                   deliveredAt := some now } :: l₂ ∧
         (markAsDelivered deliveryId now ds del).2 = setAdd del (recKey d₀)) := by
  constructor
  · intro h
    unfold markAsDelivered
    rw [h]
  · intro d₀ hfind hnd
    obtain ⟨hpd, l₁, l₂, hsplit, hfail⟩ := find?_eq_some_split _ ds d₀ hfind
    have hid : d₀.id = deliveryId := by simpa using hpd
    have hl₂ : ∀ x ∈ l₂, (x.id == deliveryId) = false := by
      rw [hsplit, List.map_append, List.map_cons, List.nodup_append,
        List.nodup_cons] at hnd
      intro x hx
      have hxid : x.id ≠ deliveryId := by
        intro heq
        have hmem : d₀.id ∈ List.map BalloonDelivery.id l₂ := by
          rw [hid, ← heq]
          exact List.mem_map_of_mem _ hx
        exact hnd.2.1.1 hmem
      simp [hxid]
    have hcalc : markAsDelivered deliveryId now ds del =
        (l₁ ++ { d₀ with
                 status := DeliveryStatus.delivered,
                 deliveredAt := some now } :: l₂, setAdd del (recKey d₀)) := by
      unfold markAsDelivered
      rw [hfind, hsplit, List.foldl_append,
        mark_fold_skip deliveryId now l₁ [] del hfail, List.foldl_cons]
      have hstep : markStep deliveryId now (([] : List BalloonDelivery) ++ l₁, del) d₀ =
          (([] ++ l₁) ++ [{ d₀ with
                            status := DeliveryStatus.delivered,
                            deliveredAt := some now }], setAdd del (recKey d₀)) := by
        simp [markStep, hid, recKey]
      rw [hstep, mark_fold_skip deliveryId now l₂ _ _ hl₂]
      simp
    exact ⟨l₁, l₂, hsplit, by rw [hcalc], by rw [hcalc]⟩

/-- The two records of the C9 witness list. -/
def dA : BalloonDelivery :=
  ⟨"delivery-A", "TA", "PA", "PA", "A", "tA", DeliveryStatus.pending, none,
   "", false, false, false⟩

/-- Second record of the C9 witness list. -/
def dB : BalloonDelivery :=
  ⟨"delivery-B", "TB", "PB", "PB", "B", "tB", DeliveryStatus.pending, none,
   "", false, false, false⟩

/-- Witness for C9: both the no-op branch (unknown id) and the update
branch (known id) at concrete inputs. -/
theorem C9_witness :
    markAsDelivered "zzz" "now" [dA] [] = ([dA], []) ∧
    ∃ l₁ l₂, [dA, dB] = l₁ ++ dB :: l₂ ∧
      (markAsDelivered "delivery-B" "now" [dA, dB] []).1 =
        l₁ ++ { dB with
                status := DeliveryStatus.delivered,
                deliveredAt := some "now" } :: l₂ ∧
      (markAsDelivered "delivery-B" "now" [dA, dB] []).2 = setAdd [] (recKey dB) :=
  ⟨(C9_markDelivered "zzz" "now" [dA] []).1 (by decide),
   (C9_markDelivered "delivery-B" "now" [dA, dB] []).2 dB (by decide) (by decide)⟩

/-- C10: every record flagged `isFirstACInContest` is also flagged
`isFirstSolve` and `isFirstTeamSolve` — the first record of a pass has no
earlier record sharing its problem or team. -/
theorem C10_flag_implication (cd : Option ContestData) (deliveredBalloons : List String) :
    ∀ r ∈ processDeliveries cd deliveredBalloons,
      r.isFirstACInContest = true →
      r.isFirstSolve = true ∧ r.isFirstTeamSolve = true := by
  intro r hr
  cases cd with
  | none => exact absurd hr (List.not_mem_nil r)
  | some cd =>
    rcases processDeliveries_cases cd deliveredBalloons with
      hnil | ⟨subs, teams, probs, judgs, _, _, _, _, heq⟩
    · rw [hnil] at hr
      exact absurd hr (List.not_mem_nil r)
    · rw [heq] at hr
      refine @foldl_records_prop teams probs judgs deliveredBalloons
        (fun r => r.isFirstACInContest = true →
          r.isFirstSolve = true ∧ r.isFirstTeamSolve = true)
        ?_ (sortByKey submissionLt subs) ([], [])
        (fun x hx => absurd hx (List.not_mem_nil x)) r hr
      intro p ds s
      cases ds with
      | nil => exact fun _ => ⟨rfl, rfl⟩
      | cons x xs =>
        intro hflag
        exact absurd hflag (by simp [mkDelivery])

/-- Witness for C10: the first scenario record carries all three flags. -/
theorem C10_witness :
    rBpending.isFirstSolve = true ∧ rBpending.isFirstTeamSolve = true :=
  C10_flag_implication (some scenarioData) [] rBpending (by decide) (by decide)
